import Mathlib

/-!
Shallow embedding of the dynamic AWS resource-graph builder
(`awsclassic.py`): the reference resolver, the schema-introspection
helpers, the naming strategy and the orchestrating `build` loop.

Python strings are modelled as Lean `String`s, with the string
primitives the source uses (`startswith`, slicing, `split`,
`rsplit`, `lower`, `strip`, `in`) re-implemented over the underlying
character lists so that they compute by kernel reduction.  Python
dictionaries (argument maps, the resource registry, the provider
module table) are association lists with first-match lookup and
in-place replacement on insert, matching the unique-key discipline of
the source.  Python exceptions are modelled with `Except String`:
raising is `.error`, a `try/except` that warns and falls through is a
`match` that discards the error.
-/

/-! ### String primitives (over character lists) -/

/-- Python `s.startswith(pre)`. -/
def strStartsWith (s pre : String) : Bool :=
  pre.data.isPrefixOf s.data

/-- Python `s[n:]`. -/
def strDrop (s : String) (n : Nat) : String :=
  ⟨s.data.drop n⟩

/-- Python `s[:n]`. -/
def strTake (s : String) (n : Nat) : String :=
  ⟨s.data.take n⟩

/-- Python `c in s` for a single character. -/
def strContainsChar (s : String) (c : Char) : Bool :=
  s.data.contains c

/-- Python `s.lower()` (ASCII, which covers every name the builder touches). -/
def strToLower (s : String) : String :=
  ⟨s.data.map Char.toLower⟩

/-- Python `s.strip()`: drop whitespace from both ends. -/
def strTrim (s : String) : String :=
  ⟨((s.data.dropWhile Char.isWhitespace).reverse.dropWhile Char.isWhitespace).reverse⟩

/-- Split a character list at its first `'.'`: `some (before, after)`,
or `none` when no dot occurs.  Together with the `none` fallback this
models Python's `if "." in s: s.split(".", 1)`. -/
def splitFirstDot : List Char → Option (List Char × List Char)
  | [] => none
  | c :: rest =>
    if c = '.' then some ([], rest)
    else (splitFirstDot rest).map (fun p => (c :: p.1, p.2))

/-- Split a character list at its last `'.'`: `some (before, after)`,
or `none` when no dot occurs.  Models Python's `s.rsplit(".", 1)`. -/
def splitLastDot : List Char → Option (List Char × List Char)
  | [] => none
  | c :: rest =>
    match splitLastDot rest with
    | some p => some (c :: p.1, p.2)
    | none => if c = '.' then some ([], rest) else none

/-- `module_name, class_name = resource_type.rsplit(".", 1)`: with no dot
present the 1-element unpacking raises a `ValueError`, which this models
as `.error`. -/
def rsplitTypeIdent (s : String) : Except String (String × String) :=
  match splitLastDot s.data with
  | some p => .ok (⟨p.1⟩, ⟨p.2⟩)
  | none => .error "ValueError: not enough values to unpack"

/-- `to_snake_case`: the regex `(?<!^)(?=[A-Z])` inserts `_` before every
uppercase character except at position 0; then `.lower()`. -/
def snakeTail : List Char → List Char
  | [] => []
  | c :: cs => (if c.isUpper then ['_', c] else [c]) ++ snakeTail cs

/-- `to_snake_case(name)` from `awsclassic.py`. -/
def to_snake_case (name : String) : String :=
  strToLower (match name.data with
    | [] => ⟨[]⟩
    | c :: cs => ⟨c :: snakeTail cs⟩)

/-! ### Python dictionaries as association lists -/

/-- `d.get(k)` / `k in d`: first-match lookup. -/
def dictGet {α : Type} : List (String × α) → String → Option α
  | [], _ => none
  | (k2, v) :: rest, k => if k2 = k then some v else dictGet rest k

/-- `k in d`. -/
def dictHas {α : Type} (d : List (String × α)) (k : String) : Bool :=
  (dictGet d k).isSome

/-- `d[k] = v`: replace the entry in place if the key is present,
append otherwise. -/
def dictInsert {α : Type} : List (String × α) → String → α → List (String × α)
  | [], k, v => [(k, v)]
  | (k2, v2) :: rest, k, v =>
    if k2 = k then (k, v) :: rest else (k2, v2) :: dictInsert rest k v

/-- `d.pop(k, default)`'s removal effect: drop the entry for `k`. -/
def dictRemove {α : Type} : List (String × α) → String → List (String × α)
  | [], _ => []
  | (k2, v2) :: rest, k =>
    if k2 = k then dictRemove rest k else (k2, v2) :: dictRemove rest k

/-- `d.setdefault(k, v)`: insert only when the key is absent. -/
def dictSetdefault {α : Type} (d : List (String × α)) (k : String) (v : α) :
    List (String × α) :=
  if dictHas d k then d else d ++ [(k, v)]

/-! ### Values, handles, registries -/

/-- A YAML/JSON-style value as it appears in the configuration's nested
argument maps: null, booleans, integers, strings, sequences, mappings. -/
inductive Value where
  | vnull
  | vbool (b : Bool)
  | vint (n : Int)
  | vstr (s : String)
  | vlist (xs : List Value)
  | vdict (kvs : List (String × Value))

/-- Python truthiness, as used by `if is_existing:` and `if resource_tags:`. -/
def Value.truthy : Value → Bool
  | .vnull => false
  | .vbool b => b
  | .vint n => decide (n ≠ 0)
  | .vstr s => !s.data.isEmpty
  | .vlist xs => !xs.isEmpty
  | .vdict kvs => !kvs.isEmpty

/-- The opaque handle returned by a provider creation or lookup call,
addressable by attribute name.  An attribute mapped to `Value.vnull`
models a Python attribute whose value is `None`; an absent key models a
missing attribute (Python `getattr` with default `None` conflates the
two). -/
structure Handle where
  attrs : List (String × Value)

/-- `self.resources`: logical name to handle. -/
abbrev Registry : Type := List (String × Handle)

/-- `getattr(resource_obj, ref_attr, None)`. -/
def handleGetattr (h : Handle) (attr : String) : Value :=
  match dictGet h.attrs attr with
  | some v => v
  | none => .vnull

/-! ### The reference resolver (`resolve_value`, `resolve_args`) -/

mutual
/-- `resolve_value(value, resources)` from `awsclassic.py`: walk dicts and
lists structurally; a string starting with `"ref:"` is looked up in the
registry (`ValueError` when the name is absent or the attribute comes
back `None`); every other value is returned unchanged. -/
def resolve_value (value : Value) (resources : Registry) : Except String Value :=
  match value with
  | .vdict kvs =>
    match resolveValueDict kvs resources with
    | .error e => .error e
    | .ok r => .ok (.vdict r)
  | .vlist xs =>
    match resolveValueList xs resources with
    | .error e => .error e
    | .ok r => .ok (.vlist r)
  | .vstr s =>
    if strStartsWith s "ref:" then
      let ref_text := strDrop s 4
      let p : String × String :=
        match splitFirstDot ref_text.data with
        | some q => (⟨q.1⟩, ⟨q.2⟩)
        | none => (ref_text, "id")
      match dictGet resources p.1 with
      | none => .error ("Referenced resource '" ++ p.1 ++ "' not found.")
      | some resource_obj =>
        match handleGetattr resource_obj p.2 with
        | .vnull => .error ("Attribute '" ++ p.2 ++ "' not found on resource '" ++ p.1 ++ "'")
        | attr_val => .ok attr_val
    else .ok (.vstr s)
  | v => .ok v

/-- The list comprehension `[resolve_value(item, resources) for item in value]`. -/
def resolveValueList (xs : List Value) (resources : Registry) :
    Except String (List Value) :=
  match xs with
  | [] => .ok []
  | v :: vs =>
    match resolve_value v resources with
    | .error e => .error e
    | .ok rv =>
      match resolveValueList vs resources with
      | .error e => .error e
      | .ok rvs => .ok (rv :: rvs)

/-- The dict comprehension `{k: resolve_value(v, resources) for k, v in value.items()}`. -/
def resolveValueDict (kvs : List (String × Value)) (resources : Registry) :
    Except String (List (String × Value)) :=
  match kvs with
  | [] => .ok []
  | (k, v) :: rest =>
    match resolve_value v resources with
    | .error e => .error e
    | .ok rv =>
      match resolveValueDict rest resources with
      | .error e => .error e
      | .ok rrest => .ok ((k, rv) :: rrest)
end

/-- `AWSResourceBuilder.resolve_args`. -/
def resolve_args (args : List (String × Value)) (resources : Registry) :
    Except String (List (String × Value)) :=
  resolveValueDict args resources

mutual
/-- A value with no reserved-prefix strings anywhere inside it: no string
leaf starts with `"ref:"` or `"secret:"`. -/
def Value.noReserved : Value → Bool
  | .vstr s => !strStartsWith s "ref:" && !strStartsWith s "secret:"
  | .vlist xs => Value.noReservedList xs
  | .vdict kvs => Value.noReservedDict kvs
  | _ => true

/-- `noReserved` over a sequence. -/
def Value.noReservedList : List Value → Bool
  | [] => true
  | v :: vs => v.noReserved && Value.noReservedList vs

/-- `noReserved` over a mapping. -/
def Value.noReservedDict : List (String × Value) → Bool
  | [] => true
  | (_, v) :: kvs => v.noReserved && Value.noReservedDict kvs
end

/-! ### Naming strategy -/

/-- `AWS_REGION_ABBREVIATIONS` from `awsclassic.py`. -/
def AWS_REGION_ABBREVIATIONS : List (String × String) :=
  [("us-east-1", "use1"), ("us-east-2", "use2"), ("us-west-1", "usw1"),
   ("us-west-2", "usw2"), ("af-south-1", "afs1"), ("ap-east-1", "ape1"),
   ("ap-south-1", "aps1"), ("ap-northeast-1", "apne1"), ("ap-northeast-2", "apne2"),
   ("ap-northeast-3", "apne3"), ("ap-southeast-1", "apse1"), ("ap-southeast-2", "apse2"),
   ("ca-central-1", "cac1"), ("ca-west-1", "caw1"), ("eu-central-1", "euc1"),
   ("eu-west-1", "euw1"), ("eu-west-2", "euw2"), ("eu-west-3", "euw3"),
   ("eu-north-1", "eun1"), ("eu-south-1", "eus1"), ("me-south-1", "mes1"),
   ("sa-east-1", "sae1"), ("us-gov-east-1", "usge1"), ("us-gov-west-1", "usgw1"),
   ("cn-north-1", "cnn1"), ("cn-northwest-1", "cnnw1")]

/-- `get_abbreviation`: table lookup on the lower-cased region, falling
back to the first three characters, lower-cased. -/
def get_abbreviation (region : String) : String :=
  match dictGet AWS_REGION_ABBREVIATIONS (strToLower region) with
  | some a => a
  | none => strToLower (strTake region 3)

/-! ### Configuration and resource descriptions -/

/-- One entry of `aws_resources` in the YAML configuration.  `name` and
`type` are accessed with `resource_cfg["name"]` / `["type"]` and are
required; `args` defaults to the empty dict.  The `existing` and
`custom_name` fields model top-level keys of the description dict: the
builder never reads either of them (`existing` is honoured only as a key
inside `args`, and no code consults `custom_name`). -/
structure ResourceCfg where
  name : String
  type : String
  args : Option (List (String × Value)) := none
  existing : Option Value := none
  custom_name : Option String := none

/-- The configuration dict handed to `AWSResourceBuilder`; every field the
builder reads with `self.config.get(...)`. -/
structure Config where
  team : Option String := none
  service : Option String := none
  environment : Option String := none
  region : Option String := none
  tags : Option Value := none
  aws_resources : List ResourceCfg := []

/-- `generate_resource_name`: compose
`{team}-{service}-{env}-{reg_abbr}-{base_name}` from trimmed,
lower-cased identity fields, then lower-case the whole string. -/
def generate_resource_name (cfg : Config) (base_name : String) : String :=
  let team := strToLower (strTrim (cfg.team.getD "team"))
  let service := strToLower (strTrim (cfg.service.getD "svc"))
  let env := strToLower (strTrim (cfg.environment.getD "dev"))
  let reg_abbr := get_abbreviation (cfg.region.getD "us-east-1")
  strToLower (team ++ "-" ++ service ++ "-" ++ env ++ "-" ++ reg_abbr ++ "-" ++ base_name)

/-! ### The provider SDK as an environment

The source discovers modules, resource classes and lookup functions on
the `pulumi_aws` package by `getattr` and reads their parameter lists
with `inspect.signature`.  The environment records exactly that
information: per module a table of resource classes (creation parameter
names plus the creation call itself) and of `get_*` lookup functions
(parameter names tagged with whether they carry a default, plus the
lookup call).  Creation and lookup calls may raise, modelled as
`Except`. -/

/-- A `get_<kind>` lookup function: its signature (parameter name, `true`
iff the parameter has a default) and its invocation. -/
structure GetFunc where
  params : List (String × Bool)
  invoke : List (String × Value) → Except String Handle

/-- A resource class: the parameter names of its creation entry point
(`inspect.signature(ResourceClass.__init__)`) and the creation call
`ResourceClass(pulumi_name, **resolved_args)`. -/
structure ResourceClass where
  initParams : List String
  create : String → List (String × Value) → Except String Handle

/-- One provider module: its resource classes and its `get_*` functions. -/
structure AwsModule where
  classes : List (String × ResourceClass)
  getFuncs : List (String × GetFunc)

/-- The `pulumi_aws` package: a table of modules. -/
structure AwsEnv where
  modules : List (String × AwsModule)

/-- The set `{k for k, param in sig.parameters.items() if k not in {"opts"}
and param.default == param.empty}` of mandatory lookup parameters. -/
def getRequired (gf : GetFunc) : List String :=
  (gf.params.filter (fun p => p.1 ≠ "opts" && !p.2)).map Prod.fst

/-- `get_lookup_params(required_params, resolved_args)`: for each required
parameter take the value under its snake_case name, else under the
original name, else leave it out. -/
def get_lookup_params (required_params : List String)
    (resolved_args : List (String × Value)) : List (String × Value) :=
  match required_params with
  | [] => []
  | param :: rest =>
    let acc := get_lookup_params rest resolved_args
    match dictGet resolved_args (to_snake_case param) with
    | some v => (param, v) :: acc
    | none =>
      match dictGet resolved_args param with
      | some v => (param, v) :: acc
      | none => acc

/-! ### The orchestrator (`AWSResourceBuilder.build`) -/

/-- The `tags` half of `_apply_common_parameters` (lines 118–124): inject
the build-wide tags via `setdefault` when the constructor accepts `tags`
and the configured tag-set is truthy, else strip `tags`. -/
def apply_tags_parameter (cfg : Config) (resolved_args : List (String × Value))
    (initParams : List String) : List (String × Value) :=
  if initParams.contains "tags" then
    match cfg.tags with
    | some resource_tags =>
      if resource_tags.truthy then dictSetdefault resolved_args "tags" resource_tags
      else resolved_args
    | none => resolved_args
  else dictRemove resolved_args "tags"

/-- The `region` half of `_apply_common_parameters` (lines 126–132). -/
def apply_region_parameter (cfg : Config) (resolved_args : List (String × Value))
    (initParams : List String) : List (String × Value) :=
  if initParams.contains "region" then
    if dictHas resolved_args "region" then resolved_args
    else dictInsert resolved_args "region" (.vstr (cfg.region.getD "us-east-1"))
  else dictRemove resolved_args "region"

/-- `_apply_common_parameters(resolved_args, init_sig)`: the tags block
followed by the region block. -/
def apply_common_parameters (cfg : Config) (resolved_args : List (String × Value))
    (initParams : List String) : List (String × Value) :=
  apply_region_parameter cfg (apply_tags_parameter cfg resolved_args initParams) initParams

/-- The `try`-block of the existing-resource path (lines 166–198):
`some handle` when the lookup function exists, all mandatory parameters
are satisfied, and the invocation succeeds; `none` in every other case
(missing `get_*` function, missing mandatory parameters, or a lookup
exception), each of which merely warns and falls through to creation. -/
def lookup_attempt (m : AwsModule) (class_name : String)
    (resolved_args : List (String × Value)) : Option Handle :=
  let get_func_name := "get_" ++ to_snake_case class_name
  match dictGet m.getFuncs get_func_name with
  | none => none
  | some get_func =>
    let get_required := getRequired get_func
    let get_params := get_lookup_params get_required resolved_args
    let missing := get_required.filter (fun k => !dictHas get_params k)
    if !missing.isEmpty then none
    else
      match get_func.invoke get_params with
      | .ok h => some h
      | .error _ => none

/-- Lines 199–203: after a failed or skipped lookup, "ensure 'region' is
provided if needed".  Note the `else` branch pops `region` even when the
constructor does declare it but a value is already resolved. -/
def existing_region_fixup (cfg : Config) (resolved_args : List (String × Value))
    (initParams : List String) : List (String × Value) :=
  if initParams.contains "region" && !dictHas resolved_args "region" then
    dictInsert resolved_args "region" (.vstr (cfg.region.getD "us-east-1"))
  else
    dictRemove resolved_args "region"

/-- Lines 206–212: apply the common parameters, compute the Pulumi name,
invoke the creation entry point and register the handle under the
logical name.  A creation exception is not caught. -/
def create_and_register (cfg : Config) (resources : Registry) (name : String)
    (rcls : ResourceClass) (resolved_args : List (String × Value)) :
    Except String Registry :=
  let ra := apply_common_parameters cfg resolved_args rcls.initParams
  let pulumi_name := generate_resource_name cfg name
  match rcls.create pulumi_name ra with
  | .error e => .error e
  | .ok resource_instance => .ok (dictInsert resources name resource_instance)

/-- Lines 149–213, the loop body from type-identifier parsing onwards:
locate module and class (warn and skip when absent), then either attempt
the existing-resource lookup or create. -/
def dispatch_resource (cfg : Config) (env : AwsEnv) (resources : Registry)
    (name type_ : String) (is_existing : Value)
    (resolved_args : List (String × Value)) : Except String Registry :=
  match rsplitTypeIdent type_ with
  | .error e => .error e
  | .ok (module_name, class_name) =>
    match dictGet env.modules module_name with
    | none => .ok resources
    | some m =>
      match dictGet m.classes class_name with
      | none => .ok resources
      | some rcls =>
        if is_existing.truthy then
          match lookup_attempt m class_name resolved_args with
          | some existing_resource =>
            .ok (dictInsert resources name existing_resource)
          | none =>
            create_and_register cfg resources name rcls
              (existing_region_fixup cfg resolved_args rcls.initParams)
        else
          create_and_register cfg resources name rcls resolved_args

/-- One iteration of the `for resource_cfg in aws_resources` loop:
pop `existing` from the args, resolve the remaining args against the
current registry (resolution errors propagate), then dispatch to the
lookup/creation logic. -/
def build_step (cfg : Config) (env : AwsEnv) (resources : Registry)
    (rc : ResourceCfg) : Except String Registry :=
  let args0 := (rc.args.getD [])
  let is_existing := (dictGet args0 "existing").getD (.vbool false)
  let args := dictRemove args0 "existing"
  match resolve_args args resources with
  | .error e => .error e
  | .ok resolved_args =>
    dispatch_resource cfg env resources rc.name rc.type is_existing resolved_args

/-- `AWSResourceBuilder.build`: fold the loop body over `aws_resources`,
starting from the empty registry of a fresh builder. -/
def build (cfg : Config) (env : AwsEnv) : Except String Registry :=
  List.foldlM (build_step cfg env) [] cfg.aws_resources

/-! ### Small facts about the dictionary and string primitives -/

theorem dictGet_insert_self {α : Type} (d : List (String × α)) (k : String) (v : α) :
    dictGet (dictInsert d k v) k = some v := by
  induction d with
  | nil => simp [dictInsert, dictGet]
  | cons hd tl ih =>
    obtain ⟨k2, v2⟩ := hd
    by_cases hk : k2 = k
    · simp [dictInsert, dictGet, hk]
    · simp [dictInsert, dictGet, hk, ih]

theorem dictGet_insert_ne {α : Type} (d : List (String × α)) (k k' : String) (v : α)
    (h : k' ≠ k) : dictGet (dictInsert d k v) k' = dictGet d k' := by
  induction d with
  | nil => simp [dictInsert, dictGet, Ne.symm h]
  | cons hd tl ih =>
    obtain ⟨k2, v2⟩ := hd
    by_cases hk : k2 = k
    · subst hk
      simp [dictInsert, dictGet, Ne.symm h]
    · simp [dictInsert, dictGet, hk, ih]

theorem dictGet_remove_self {α : Type} (d : List (String × α)) (k : String) :
    dictGet (dictRemove d k) k = none := by
  induction d with
  | nil => simp [dictRemove, dictGet]
  | cons hd tl ih =>
    obtain ⟨k2, v2⟩ := hd
    by_cases hk : k2 = k
    · simp [dictRemove, hk, ih]
    · simp [dictRemove, dictGet, hk, ih]

theorem dictGet_remove_ne {α : Type} (d : List (String × α)) (k k' : String)
    (h : k' ≠ k) : dictGet (dictRemove d k) k' = dictGet d k' := by
  induction d with
  | nil => simp [dictRemove]
  | cons hd tl ih =>
    obtain ⟨k2, v2⟩ := hd
    by_cases hk : k2 = k
    · subst hk
      simp [dictRemove, dictGet, Ne.symm h, ih]
    · simp [dictRemove, dictGet, hk, ih]

theorem dictGet_append_none {α : Type} (d e : List (String × α)) (k : String)
    (h : dictGet d k = none) : dictGet (d ++ e) k = dictGet e k := by
  induction d with
  | nil => simp
  | cons hd tl ih =>
    obtain ⟨k2, v2⟩ := hd
    by_cases hk : k2 = k
    · simp [dictGet, hk] at h
    · simp [dictGet, hk] at h ⊢
      exact ih h

theorem dictInsert_eq_append {α : Type} (d : List (String × α)) (k : String) (v : α)
    (h : dictGet d k = none) : dictInsert d k v = d ++ [(k, v)] := by
  induction d with
  | nil => simp [dictInsert]
  | cons hd tl ih =>
    obtain ⟨k2, v2⟩ := hd
    by_cases hk : k2 = k
    · simp [dictGet, hk] at h
    · simp [dictGet, hk] at h
      simp [dictInsert, hk, ih h]

theorem dictGet_setdefault_present {α : Type} (d : List (String × α)) (k : String)
    (v : α) (h : dictHas d k = true) : dictSetdefault d k v = d := by
  simp [dictSetdefault, h]

theorem dictGet_setdefault_absent {α : Type} (d : List (String × α)) (k : String)
    (v : α) (h : dictGet d k = none) : dictGet (dictSetdefault d k v) k = some v := by
  simp [dictSetdefault, dictHas, h, dictGet_append_none d [(k, v)] k h, dictGet]

/-! ### Facts about reserved prefixes and dotted reference paths -/

theorem strStartsWith_append (pre rest : String) :
    strStartsWith (pre ++ rest) pre = true := by
  have : pre.data <+: (pre ++ rest).data := by
    rw [String.data_append]
    exact List.prefix_append pre.data rest.data
  simp only [strStartsWith, List.isPrefixOf_iff_prefix]
  exact this

theorem strDrop_ref_append (s : String) : strDrop ("ref:" ++ s) 4 = s := by
  show String.mk (("ref:" ++ s).data.drop 4) = s
  rw [String.data_append]
  show String.mk ((['r', 'e', 'f', ':'] ++ s.data).drop 4) = s
  simp

theorem secret_not_ref (s : String) (h : strStartsWith s "secret:" = true) :
    strStartsWith s "ref:" = false := by
  rw [strStartsWith, List.isPrefixOf_iff_prefix] at h
  obtain ⟨t, ht⟩ := h
  show List.isPrefixOf "ref:".data s.data = false
  rw [← ht]
  show List.isPrefixOf ['r', 'e', 'f', ':'] ('s' :: ('e' :: 'c' :: 'r' :: 'e' :: 't' :: ':' :: []) ++ t) = false
  simp [List.isPrefixOf]

theorem splitFirstDot_of_noDot (cs : List Char) (h : '.' ∉ cs) :
    splitFirstDot cs = none := by
  induction cs with
  | nil => rfl
  | cons c rest ih =>
    simp only [List.mem_cons, not_or] at h
    simp [splitFirstDot, Ne.symm h.1, ih h.2]

theorem splitFirstDot_append (a b : List Char) (h : '.' ∉ a) :
    splitFirstDot (a ++ '.' :: b) = some (a, b) := by
  induction a with
  | nil => simp [splitFirstDot]
  | cons c rest ih =>
    simp only [List.mem_cons, not_or] at h
    simp [splitFirstDot, Ne.symm h.1, ih h.2]

/-! ### Idempotence of resolution on reserved-prefix-free values -/

mutual
theorem resolve_value_noReserved (v : Value) (res : Registry)
    (h : v.noReserved = true) : resolve_value v res = .ok v := by
  match v with
  | .vnull => simp [resolve_value]
  | .vbool b => simp [resolve_value]
  | .vint n => simp [resolve_value]
  | .vstr s =>
    rw [Value.noReserved] at h
    simp only [Bool.and_eq_true, Bool.not_eq_true'] at h
    simp [resolve_value, h.1]
  | .vlist xs =>
    rw [Value.noReserved] at h
    simp [resolve_value, resolveValueList_noReserved xs res h]
  | .vdict kvs =>
    rw [Value.noReserved] at h
    simp [resolve_value, resolveValueDict_noReserved kvs res h]

theorem resolveValueList_noReserved (xs : List Value) (res : Registry)
    (h : Value.noReservedList xs = true) : resolveValueList xs res = .ok xs := by
  match xs with
  | [] => simp [resolveValueList]
  | v :: vs =>
    rw [Value.noReservedList] at h
    simp only [Bool.and_eq_true] at h
    simp [resolveValueList, resolve_value_noReserved v res h.1,
      resolveValueList_noReserved vs res h.2]

theorem resolveValueDict_noReserved (kvs : List (String × Value)) (res : Registry)
    (h : Value.noReservedDict kvs = true) : resolveValueDict kvs res = .ok kvs := by
  match kvs with
  | [] => simp [resolveValueDict]
  | (k, v) :: rest =>
    rw [Value.noReservedDict] at h
    simp only [Bool.and_eq_true] at h
    simp [resolveValueDict, resolve_value_noReserved v res h.1,
      resolveValueDict_noReserved rest res h.2]
end

/-- C7: resolution is idempotent on resolved inputs — a value (scalar,
nested mapping, or list) containing no strings with a reserved prefix
(`"ref:"` or `"secret:"`) resolves, against any registry, to itself. -/
theorem C7_resolution_idempotent_on_resolved (v : Value) (res : Registry)
    (h : v.noReserved = true) : resolve_value v res = .ok v :=
  resolve_value_noReserved v res h

/-- Witness for C7: a concrete nested value with no reserved prefixes
resolves to itself against the empty registry. -/
theorem C7_witness :
    (Value.vdict [("a", .vstr "hello"), ("b", .vlist [.vint 3, .vnull])]).noReserved = true ∧
      resolve_value (.vdict [("a", .vstr "hello"), ("b", .vlist [.vint 3, .vnull])]) [] =
        .ok (.vdict [("a", .vstr "hello"), ("b", .vlist [.vint 3, .vnull])]) := by
  refine ⟨?_, C7_resolution_idempotent_on_resolved _ [] ?_⟩ <;>
    simp [Value.noReserved, Value.noReservedDict, Value.noReservedList,
      strStartsWith, List.isPrefixOf]

/-! ### C1: the `secret:` prefix -/

/-- C1 counterexample: the resolver has no `secret:` branch at all — a
string beginning with `"secret:"` is returned unchanged rather than
being delegated to a secret-configuration provider. -/
theorem C1_counterexample :
    resolve_value (.vstr "secret:db_password") [] = .ok (.vstr "secret:db_password") := by
  simp [resolve_value, strStartsWith, List.isPrefixOf]

/-- C1 (amended): every string argument beginning with `"secret:"` is
returned unchanged by `resolve_value`, against any registry — the
resolver treats it like any other plain string. -/
theorem C1_secret_prefix_returned_unchanged (s : String) (res : Registry)
    (h : strStartsWith s "secret:" = true) :
    resolve_value (.vstr s) res = .ok (.vstr s) := by
  simp [resolve_value, secret_not_ref s h]

/-- Witness for C1: a concrete `secret:`-prefixed string is returned
unchanged. -/
theorem C1_witness :
    strStartsWith "secret:api_key" "secret:" = true ∧
      resolve_value (.vstr "secret:api_key") [("x", ⟨[]⟩)] = .ok (.vstr "secret:api_key") :=
  ⟨by decide, C1_secret_prefix_returned_unchanged "secret:api_key" [("x", ⟨[]⟩)] (by decide)⟩

/-! ### C4: forward references abort the build -/

/-- A `ref:` to a dot-free name absent from the registry raises the
reference-not-found `ValueError`. -/
theorem resolve_value_ref_not_found (x : String) (res : Registry)
    (hnd : '.' ∉ x.data) (hx : dictGet res x = none) :
    resolve_value (.vstr ("ref:" ++ x)) res =
      .error ("Referenced resource '" ++ x ++ "' not found.") := by
  rw [resolve_value]
  simp [strStartsWith_append, strDrop_ref_append, splitFirstDot_of_noDot x.data hnd, hx]

/-- Resolution of an argument dict whose prefix resolves but whose next
entry raises propagates that error. -/
theorem resolveValueDict_append_error (as1 : List (String × Value)) (k : String)
    (v : Value) (as2 : List (String × Value)) (res : Registry)
    (r1 : List (String × Value)) (e : String)
    (h1 : resolveValueDict as1 res = .ok r1)
    (h2 : resolve_value v res = .error e) :
    resolveValueDict (as1 ++ (k, v) :: as2) res = .error e := by
  induction as1 generalizing r1 with
  | nil =>
    rw [List.nil_append, resolveValueDict, h2]
  | cons hd tl ih =>
    obtain ⟨k2, v2⟩ := hd
    rw [resolveValueDict] at h1
    cases hv2 : resolve_value v2 res with
    | error e2 => rw [hv2] at h1; exact absurd h1 (by simp)
    | ok rv2 =>
      rw [hv2] at h1
      cases htl : resolveValueDict tl res with
      | error e2 => rw [htl] at h1; exact absurd h1 (by simp)
      | ok rtl =>
        rw [List.cons_append, resolveValueDict, hv2, ih rtl htl]

/-- C4: a forward reference aborts the whole build.  If the descriptions
are `pre ++ rc :: post`, processing `pre` produced registry `st`, the
logical name `x` is not yet registered, and one of `rc`'s arguments is
the string `"ref:" ++ x` (all arguments before it resolving fine), then
`build` fails with the reference-not-found error — uncaught by the
orchestrator, so no later description is processed. -/
theorem C4_forward_reference_aborts_build
    (cfg : Config) (env : AwsEnv) (pre : List ResourceCfg) (rc : ResourceCfg)
    (post : List ResourceCfg) (st : Registry) (x k : String)
    (as1 as2 r1 : List (String × Value))
    (hlist : cfg.aws_resources = pre ++ rc :: post)
    (hpre : List.foldlM (build_step cfg env) [] pre = .ok st)
    (hx : dictGet st x = none)
    (hnd : '.' ∉ x.data)
    (hargs : dictRemove (rc.args.getD []) "existing" = as1 ++ (k, .vstr ("ref:" ++ x)) :: as2)
    (h1 : resolveValueDict as1 st = .ok r1) :
    build cfg env = .error ("Referenced resource '" ++ x ++ "' not found.") := by
  have herr := resolve_value_ref_not_found x st hnd hx
  have hra : resolve_args (dictRemove (rc.args.getD []) "existing") st =
      .error ("Referenced resource '" ++ x ++ "' not found.") := by
    rw [resolve_args, hargs]
    exact resolveValueDict_append_error as1 k _ as2 st r1 _ h1 herr
  have hstep : build_step cfg env st rc =
      .error ("Referenced resource '" ++ x ++ "' not found.") := by
    rw [build_step, hra]
  rw [build, hlist, List.foldlM_append, hpre]
  show List.foldlM (build_step cfg env) st (rc :: post) = _
  rw [List.foldlM_cons, hstep]
  rfl

/-- Witness for C4: a single description whose argument references the
not-yet-registered name `"vpc"` aborts the build. -/
theorem C4_witness :
    build { aws_resources := [{ name := "subnet", type := "ec2.Subnet",
                                args := some [("vpc_id", .vstr ("ref:" ++ "vpc"))] }] } ⟨[]⟩ =
      .error ("Referenced resource '" ++ "vpc" ++ "' not found.") := by
  exact C4_forward_reference_aborts_build _ ⟨[]⟩ [] _ [] [] "vpc" "vpc_id" [] [] []
    rfl rfl rfl (by decide) (by simp [dictRemove]) rfl

/-! ### C9: a null attribute is indistinguishable from a missing one -/

/-- C9: resolving `ref:<name>.<attribute>` against a registry that has
`<name>` fails with the attribute-not-found `ValueError` both when the
registered handle maps the attribute to null and when the handle lacks
the attribute entirely — `getattr(..., None)` plus the `is None` check
make the two cases indistinguishable. -/
theorem C9_null_attribute_indistinguishable_from_missing
    (res : Registry) (nm attr : String) (h : Handle)
    (hnd : '.' ∉ nm.data)
    (hreg : dictGet res nm = some h)
    (hattr : dictGet h.attrs attr = some .vnull ∨ dictGet h.attrs attr = none) :
    resolve_value (.vstr ("ref:" ++ (nm ++ "." ++ attr))) res =
      .error ("Attribute '" ++ attr ++ "' not found on resource '" ++ nm ++ "'") := by
  rw [resolve_value]
  have hmk : ∀ s : String, String.mk s.data = s := fun _ => rfl
  rcases hattr with hattr | hattr <;>
    simp [strStartsWith_append, strDrop_ref_append, splitFirstDot_append nm.data attr.data hnd,
      hmk, hreg, handleGetattr, hattr]

/-- Witness for C9: the attribute `"arn"` is present on the registered
handle but null, and resolution raises attribute-not-found. -/
theorem C9_witness :
    resolve_value (.vstr ("ref:" ++ ("db" ++ "." ++ "arn"))) [("db", ⟨[("arn", .vnull)]⟩)] =
      .error ("Attribute '" ++ "arn" ++ "' not found on resource '" ++ "db" ++ "'") :=
  C9_null_attribute_indistinguishable_from_missing [("db", ⟨[("arn", .vnull)]⟩)] "db" "arn"
    ⟨[("arn", .vnull)]⟩ (by decide) rfl (Or.inl rfl)

/-! ### C5: tag reconciliation -/

/-- Once the arguments are resolved, the loop body is the dispatch. -/
theorem build_step_resolved (cfg : Config) (env : AwsEnv) (st : Registry)
    (rc : ResourceCfg) (ra : List (String × Value))
    (h : resolve_args (dictRemove (rc.args.getD []) "existing") st = .ok ra) :
    build_step cfg env st rc =
      dispatch_resource cfg env st rc.name rc.type
        ((dictGet (rc.args.getD []) "existing").getD (.vbool false)) ra := by
  rw [build_step, h]

/-- The region block never touches the `"tags"` key. -/
theorem apply_region_parameter_tags (cfg : Config) (a : List (String × Value))
    (ip : List String) :
    dictGet (apply_region_parameter cfg a ip) "tags" = dictGet a "tags" := by
  rw [apply_region_parameter]
  split
  · split
    · rfl
    · exact dictGet_insert_ne a "region" "tags" _ (by decide)
  · exact dictGet_remove_ne a "region" "tags" (by decide)

/-- C5: tag reconciliation.  With a truthy tag-set configured: when the
creation entry point declares `tags` and the resolved arguments have no
`tags`, the arguments handed to the creation invocation carry the
configured tag-set; when the resolved arguments already carry `tags`,
that value survives unchanged; when the entry point does not declare
`tags`, the argument is stripped.  (`create_and_register` passes exactly
`apply_common_parameters cfg ra initParams` to the creation call.) -/
theorem C5_tag_reconciliation (cfg : Config) (ra : List (String × Value))
    (initParams : List String) (t : Value)
    (htags : cfg.tags = some t) (htruthy : t.truthy = true) :
    (initParams.contains "tags" = true →
      (dictGet ra "tags" = none →
        dictGet (apply_common_parameters cfg ra initParams) "tags" = some t)
      ∧ (∀ v, dictGet ra "tags" = some v →
        dictGet (apply_common_parameters cfg ra initParams) "tags" = some v))
    ∧ (initParams.contains "tags" = false →
      dictGet (apply_common_parameters cfg ra initParams) "tags" = none) := by
  rw [apply_common_parameters]
  constructor
  · intro hc
    constructor
    · intro hnone
      rw [apply_region_parameter_tags, apply_tags_parameter]
      simp only [hc, if_true, htags, htruthy]
      exact dictGet_setdefault_absent ra "tags" t hnone
    · intro v hv
      rw [apply_region_parameter_tags, apply_tags_parameter]
      simp only [hc, if_true, htags, htruthy]
      rw [dictGet_setdefault_present ra "tags" t (by simp [dictHas, hv])]
      exact hv
  · intro hc
    rw [apply_region_parameter_tags, apply_tags_parameter]
    simp only [hc, Bool.false_eq_true, if_false]
    exact dictGet_remove_self ra "tags"

/-- Witness for C5: with configured tags `{"owner": "teamA"}` and no
`tags` argument, an entry point declaring `tags` receives the configured
set. -/
theorem C5_witness :
    dictGet (apply_common_parameters { tags := some (.vdict [("owner", .vstr "teamA")]) }
      [] ["tags"]) "tags" = some (.vdict [("owner", .vstr "teamA")]) :=
  ((C5_tag_reconciliation { tags := some (.vdict [("owner", .vstr "teamA")]) } [] ["tags"]
    (.vdict [("owner", .vstr "teamA")]) rfl (by decide)).1 (by decide)).1 rfl

/-! ### C3: the `custom_name` override -/

/-- A probe provider whose creation call records the Pulumi name it was
invoked with. -/
def nameProbeEnv : AwsEnv :=
  ⟨[("s3", { classes := [("Bucket", { initParams := [],
                                      create := fun n _ => .ok ⟨[("pulumi_name", .vstr n)]⟩ })],
             getFuncs := [] })]⟩

/-- A configuration whose single description carries a `custom_name`
override. -/
def nameProbeCfg : Config :=
  { team := some "Acme", service := some "Payments", environment := some "Prod",
    region := some "us-east-1",
    aws_resources := [{ name := "bucket", type := "s3.Bucket",
                        custom_name := some "my-override" }] }

/-- C3 counterexample: the description carries `custom_name :=
"my-override"`, yet the creation call receives the composed
`{team}-{service}-{environment}-{regionAbbrev}-{logicalName}` name, not
the override. -/
theorem C3_counterexample :
    build nameProbeCfg nameProbeEnv =
      .ok [("bucket", ⟨[("pulumi_name", .vstr "acme-payments-prod-use1-bucket")]⟩)] ∧
    ("acme-payments-prod-use1-bucket" : String) ≠ "my-override" :=
  ⟨rfl, by decide⟩

/-- C3 (amended): the `custom_name` field has no effect — the loop body
never reads it, so the build result is invariant under changing it, and
every created resource gets the composed name (as the counterexample
shows concretely). -/
theorem C3_custom_name_has_no_effect (cfg : Config) (env : AwsEnv) (st : Registry)
    (rc : ResourceCfg) (o : Option String) :
    build_step cfg env st { rc with custom_name := o } = build_step cfg env st rc := by
  cases rc
  rfl

/-! ### C10: the `existing` flag is read from args, not the top level -/

/-- A probe resource class recording the name it was created under. -/
def vpcProbeClass : ResourceClass :=
  { initParams := [], create := fun n _ => .ok ⟨[("created_as", .vstr n)]⟩ }

/-- A probe module with both the creatable class and its lookup function,
so that an honoured `existing` flag would take the lookup path. -/
def ec2ProbeModule : AwsModule :=
  { classes := [("Vpc", vpcProbeClass)],
    getFuncs := [("get_vpc", { params := [],
                               invoke := fun _ => .ok ⟨[("looked_up", .vbool true)]⟩ })] }

/-- The probe provider for the `existing`-flag experiments. -/
def existingProbeEnv : AwsEnv :=
  ⟨[("ec2", ec2ProbeModule)]⟩

/-- C10: the `existing` flag is honoured only as a key inside `args`
(from which it is popped before resolution); a top-level `existing`
sibling of `name`/`type`/`args` is never read — the build result is
invariant under changing it — and with no `existing` key in `args` the
description goes through the creation path. -/
theorem C10_existing_only_inside_args (cfg : Config) (env : AwsEnv) (st : Registry)
    (rc : ResourceCfg) (v : Option Value) :
    build_step cfg env st { rc with existing := v } = build_step cfg env st rc ∧
    (∀ ra mn cn m rcls,
      dictGet (rc.args.getD []) "existing" = none →
      resolve_args (dictRemove (rc.args.getD []) "existing") st = .ok ra →
      rsplitTypeIdent rc.type = .ok (mn, cn) →
      dictGet env.modules mn = some m →
      dictGet m.classes cn = some rcls →
      build_step cfg env st rc = create_and_register cfg st rc.name rcls ra) := by
  constructor
  · cases rc
    rfl
  · intro ra mn cn m rcls hex hra hty hm hc
    rw [build_step_resolved cfg env st rc ra hra, dispatch_resource]
    simp only [hty, hm, hc, hex, Option.getD_none, Value.truthy, Bool.false_eq_true,
      if_false]

/-- Witness for C10: a description with a top-level `existing := true`
(and none inside `args`) still goes through the creation path, and the
top-level flag may be flipped without changing the result. -/
theorem C10_witness :
    (build_step { region := some "us-east-1" } existingProbeEnv []
        { name := "net", type := "ec2.Vpc", existing := some (.vbool true) } =
      build_step { region := some "us-east-1" } existingProbeEnv []
        { name := "net", type := "ec2.Vpc" }) ∧
    build_step { region := some "us-east-1" } existingProbeEnv []
        { name := "net", type := "ec2.Vpc" } =
      create_and_register { region := some "us-east-1" } [] "net" vpcProbeClass [] := by
  constructor
  · exact (C10_existing_only_inside_args { region := some "us-east-1" } existingProbeEnv []
      { name := "net", type := "ec2.Vpc" } (some (.vbool true))).1
  · exact (C10_existing_only_inside_args { region := some "us-east-1" } existingProbeEnv []
      { name := "net", type := "ec2.Vpc" } none).2 [] "ec2" "Vpc" ec2ProbeModule
      vpcProbeClass rfl rfl rfl rfl rfl

/-! ### C6: a viable existing-resource lookup precludes creation -/

/-- C6: for a description marked existing (truthy `existing` in its
args) whose module, class and lookup function all resolve, whose
mandatory lookup parameters are all satisfied from the resolved
arguments under the snake-case/original-name reconciliation rule, and
whose lookup invocation returns a handle: the loop body registers that
handle under the logical name.  The conclusion holds for an arbitrary
`ResourceClass` — creations that would fail included — so the creation
entry point is provably never invoked. -/
theorem C6_existing_lookup_skips_creation (cfg : Config) (env : AwsEnv)
    (st : Registry) (rc : ResourceCfg) (ex : Value)
    (ra : List (String × Value)) (mn cn : String) (m : AwsModule)
    (rcls : ResourceClass) (gf : GetFunc) (h : Handle)
    (hex : dictGet (rc.args.getD []) "existing" = some ex)
    (htr : ex.truthy = true)
    (hra : resolve_args (dictRemove (rc.args.getD []) "existing") st = .ok ra)
    (hty : rsplitTypeIdent rc.type = .ok (mn, cn))
    (hm : dictGet env.modules mn = some m)
    (hc : dictGet m.classes cn = some rcls)
    (hgf : dictGet m.getFuncs ("get_" ++ to_snake_case cn) = some gf)
    (hmissing : (getRequired gf).filter
      (fun k => !dictHas (get_lookup_params (getRequired gf) ra) k) = [])
    (hinv : gf.invoke (get_lookup_params (getRequired gf) ra) = .ok h) :
    build_step cfg env st rc = .ok (dictInsert st rc.name h) := by
  have hla : lookup_attempt m cn ra = some h := by
    rw [lookup_attempt]
    simp only [hgf, hmissing, List.isEmpty_nil, Bool.not_true, Bool.false_eq_true,
      if_false, hinv]
  rw [build_step_resolved cfg env st rc ra hra, dispatch_resource]
  simp only [hty, hm, hc, hex, Option.getD_some, htr, if_true, hla]

/-- A lookup function with one mandatory camelCase parameter. -/
def bucketGetFunc : GetFunc :=
  { params := [("bucketName", false), ("opts", true)],
    invoke := fun _ => .ok ⟨[("found", .vbool true)]⟩ }

/-- A module whose creation entry point always raises, making any
accidental creation invocation visible. -/
def lookupProbeModule : AwsModule :=
  { classes := [("Bucket", { initParams := ["region"],
                             create := fun _ _ => .error "creation must not be invoked" })],
    getFuncs := [("get_bucket", bucketGetFunc)] }

/-- The probe provider for the existing-lookup experiment. -/
def lookupProbeEnv : AwsEnv :=
  ⟨[("s3", lookupProbeModule)]⟩

/-- Witness for C6: `existing: true` with `bucket_name` present satisfies
`get_bucket`'s mandatory `bucketName`, the lookup handle is registered,
and the always-raising creation entry point is never reached. -/
theorem C6_witness :
    build_step { region := some "us-east-1" } lookupProbeEnv []
        { name := "logs", type := "s3.Bucket",
          args := some [("existing", .vbool true), ("bucket_name", .vstr "my-logs")] } =
      .ok [("logs", ⟨[("found", .vbool true)]⟩)] :=
  C6_existing_lookup_skips_creation { region := some "us-east-1" } lookupProbeEnv []
    { name := "logs", type := "s3.Bucket",
      args := some [("existing", .vbool true), ("bucket_name", .vstr "my-logs")] }
    (.vbool true) [("bucket_name", .vstr "my-logs")] "s3" "Bucket" lookupProbeModule
    { initParams := ["region"], create := fun _ _ => .error "creation must not be invoked" }
    bucketGetFunc ⟨[("found", .vbool true)]⟩
    rfl rfl rfl rfl rfl rfl rfl rfl rfl

/-! ### C2: region reconciliation on the existing-lookup fall-through -/

/-- A module whose class declares `region` and records the arguments its
creation call receives; it has no `get_*` function, so an
existing-marked description falls through to creation. -/
def regionBugModule : AwsModule :=
  { classes := [("Cluster", { initParams := ["region"],
                              create := fun _ args => .ok ⟨args⟩ })],
    getFuncs := [] }

/-- The probe provider for the fall-through region experiment. -/
def regionBugEnv : AwsEnv :=
  ⟨[("ecs", regionBugModule)]⟩

/-- An existing-marked description that resolves an explicit
`region = "eu-west-1"` under a build whose default region is
`"us-east-1"`; the lookup function is absent, so creation is reached. -/
def regionBugCfg : Config :=
  { region := some "us-east-1",
    aws_resources := [{ name := "c1", type := "ecs.Cluster",
                        args := some [("existing", .vbool true),
                                      ("region", .vstr "eu-west-1")] }] }

/-- C2, at the failing input: the creation entry point declares `region`
and the resolved arguments carry `region = "eu-west-1"`, yet on the
existing-lookup fall-through the creation call receives the build
default `"us-east-1"` — lines 199–203 pop the resolved region (their
`else` also covers "declared and present") and `_apply_common_parameters`
then re-injects the default.  The resolved value is not passed
unchanged, contradicting the claim (which the never-existing path and
the code's own "ensure 'region' is provided if needed" comment support). -/
theorem C2_fallthrough_replaces_resolved_region :
    build regionBugCfg regionBugEnv = .ok [("c1", ⟨[("region", .vstr "us-east-1")]⟩)] ∧
    Value.vstr "us-east-1" ≠ Value.vstr "eu-west-1" :=
  ⟨rfl, by simp⟩

/-! ### C8: the registry is append-only -/

theorem create_and_register_ok_shape (cfg : Config) (st : Registry) (name : String)
    (rcls : ResourceClass) (ra : List (String × Value)) (st' : Registry)
    (h : create_and_register cfg st name rcls ra = .ok st') :
    ∃ hd, st' = dictInsert st name hd := by
  rw [create_and_register] at h
  split at h
  · exact absurd h (by simp)
  · injection h with h'
    exact ⟨_, h'.symm⟩

/-- Every loop iteration either fails, leaves the registry untouched
(a skipped description), or registers one handle under the
description's logical name. -/
theorem build_step_ok_shape (cfg : Config) (env : AwsEnv) (st : Registry)
    (rc : ResourceCfg) (st' : Registry)
    (h : build_step cfg env st rc = .ok st') :
    st' = st ∨ ∃ hd, st' = dictInsert st rc.name hd := by
  rw [build_step] at h
  split at h
  · exact absurd h (by simp)
  · rw [dispatch_resource] at h
    split at h
    · exact absurd h (by simp)
    · split at h
      · injection h with h'
        exact Or.inl h'.symm
      · split at h
        · injection h with h'
          exact Or.inl h'.symm
        · split at h
          · split at h
            · injection h with h'
              exact Or.inr ⟨_, h'.symm⟩
            · exact Or.inr (create_and_register_ok_shape _ _ _ _ _ _ h)
          · exact Or.inr (create_and_register_ok_shape _ _ _ _ _ _ h)

theorem dictGet_insert_cases {α : Type} (d : List (String × α)) (k k' : String)
    (v : α) (h : dictGet (dictInsert d k v) k' ≠ none) :
    k' = k ∨ dictGet d k' ≠ none := by
  by_cases hk : k' = k
  · exact Or.inl hk
  · rw [dictGet_insert_ne d k k' v hk] at h
    exact Or.inr h

/-- Every key of the registry produced by a successful fold was either
already present or is the logical name of one of the processed
descriptions. -/
theorem foldlM_registry_keys (cfg : Config) (env : AwsEnv) (l : List ResourceCfg) :
    ∀ st0 st : Registry, List.foldlM (build_step cfg env) st0 l = .ok st →
    ∀ k, dictGet st k ≠ none →
    dictGet st0 k ≠ none ∨ k ∈ l.map ResourceCfg.name := by
  induction l with
  | nil =>
    intro st0 st h k hk
    simp only [List.foldlM_nil] at h
    injection h with h'
    subst h'
    exact Or.inl hk
  | cons rc' rest ih =>
    intro st0 st h k hk
    rw [List.foldlM_cons] at h
    cases hstep : build_step cfg env st0 rc' with
    | error e =>
      rw [hstep] at h
      simp only [Bind.bind, Except.bind] at h
      exact absurd h (by simp)
    | ok st1 =>
      rw [hstep] at h
      rcases ih st1 st h k hk with h1 | h1
      · rcases build_step_ok_shape cfg env st0 rc' st1 hstep with rfl | ⟨hd, rfl⟩
        · exact Or.inl h1
        · rcases dictGet_insert_cases st0 rc'.name k hd h1 with rfl | h2
          · rw [List.map_cons]
            exact Or.inr (List.mem_cons_self _ _)
          · exact Or.inl h2
      · rw [List.map_cons]
        exact Or.inr (List.mem_cons_of_mem _ h1)

/-- C8: with pairwise-distinct logical names, the registry only grows.
For any split `pre ++ rc :: post` of the descriptions whose prefix was
processed into registry `st`, the next iteration either aborts the
build, leaves `st` untouched, or appends exactly one new entry
`(rc.name, handle)` at the end — never overwriting or removing an
existing entry. -/
theorem C8_registry_append_only (cfg : Config) (env : AwsEnv)
    (hnodup : (cfg.aws_resources.map ResourceCfg.name).Nodup)
    (pre : List ResourceCfg) (rc : ResourceCfg) (post : List ResourceCfg)
    (st : Registry)
    (hlist : cfg.aws_resources = pre ++ rc :: post)
    (hpre : List.foldlM (build_step cfg env) [] pre = .ok st) :
    (∃ e, build_step cfg env st rc = .error e) ∨
    build_step cfg env st rc = .ok st ∨
    (∃ hd, build_step cfg env st rc = .ok (st ++ [(rc.name, hd)])) := by
  have hnotmem : rc.name ∉ pre.map ResourceCfg.name := by
    rw [hlist, List.map_append, List.map_cons] at hnodup
    have hdisj := (List.nodup_append.mp hnodup).2.2
    exact fun hm => hdisj hm (List.mem_cons_self _ _)
  have hnone : dictGet st rc.name = none := by
    by_contra hne
    rcases foldlM_registry_keys cfg env pre [] st hpre rc.name hne with h1 | h1
    · exact h1 rfl
    · exact hnotmem h1
  cases hstep : build_step cfg env st rc with
  | error e => exact Or.inl ⟨e, rfl⟩
  | ok st' =>
    rcases build_step_ok_shape cfg env st rc st' hstep with rfl | ⟨hd, rfl⟩
    · exact Or.inr (Or.inl rfl)
    · refine Or.inr (Or.inr ⟨hd, ?_⟩)
      rw [← dictInsert_eq_append st rc.name hd hnone]

/-- A two-description configuration with distinct logical names. -/
def appendProbeCfg : Config :=
  { aws_resources := [{ name := "a", type := "s3.Bucket" },
                      { name := "b", type := "s3.Bucket" }] }

/-- Witness for C8: after processing `"a"`, the step for `"b"` aborts,
skips, or appends a single `"b"` entry. -/
theorem C8_witness :
    (∃ e, build_step appendProbeCfg nameProbeEnv
        [("a", ⟨[("pulumi_name", .vstr "team-svc-dev-use1-a")]⟩)]
        { name := "b", type := "s3.Bucket" } = .error e) ∨
    build_step appendProbeCfg nameProbeEnv
        [("a", ⟨[("pulumi_name", .vstr "team-svc-dev-use1-a")]⟩)]
        { name := "b", type := "s3.Bucket" } =
      .ok [("a", ⟨[("pulumi_name", .vstr "team-svc-dev-use1-a")]⟩)] ∨
    (∃ hd, build_step appendProbeCfg nameProbeEnv
        [("a", ⟨[("pulumi_name", .vstr "team-svc-dev-use1-a")]⟩)]
        { name := "b", type := "s3.Bucket" } =
      .ok ([("a", ⟨[("pulumi_name", .vstr "team-svc-dev-use1-a")]⟩)] ++ [("b", hd)])) :=
  C8_registry_append_only appendProbeCfg nameProbeEnv (by decide)
    [{ name := "a", type := "s3.Bucket" }] { name := "b", type := "s3.Bucket" } []
    [("a", ⟨[("pulumi_name", .vstr "team-svc-dev-use1-a")]⟩)] rfl rfl
